import Mathlib

/-!
# Verification of the sager-frontend drone dashboard core

Shallow embedding of the repository's core logic:
* the status classifiers (`isDroneActive` in `src/pages/MapPage.jsx`,
  `getDroneStatus` in `src/components/MapContainer.jsx`),
* the statistics aggregator (`calculateDroneStats` in `MapPage.jsx`),
* the drone-state merge (`mergeDroneData` in `MapPage.jsx`),
* the curve smoother (`createCurvedPath` in `MapContainer.jsx`),
* the selection/guard discipline (`resetSelection` + `flyTo` +
  `ANIMATION_BUFFER` timeout in `MapContainer.jsx`).

JS numbers are modelled by `ℚ`; `Math.sqrt` (which only influences the
curve-control offset, never the claims proved here) is an uninterpreted
function parameter; JS objects are modelled by association lists with
JS-assignment semantics; JS `undefined` is `Option.none`; a thrown
`TypeError` is `Except.error`.
-/

/-- JS `String.prototype.split` with a one-character separator, on the
character list of the string.  `"".split(sep)` is `[""]`, a trailing
separator yields a trailing empty segment, exactly as in JS. -/
def splitOnChar (sep : Char) : List Char → List (List Char)
  | [] => [[]]
  | c :: rest =>
    match splitOnChar sep rest with
    | [] => []
    | seg :: segs => if c = sep then [] :: seg :: segs else (c :: seg) :: segs

/-- JS `segment.startsWith(m)` for a one-character marker `m`:
true iff the segment is nonempty and its first character is `m`. -/
def segStartsWith (m : Char) : List Char → Bool
  | [] => false
  | c :: _ => c == m

/-- The JS expression `registration.split("-")[1]?.startsWith("B")`
shared by both classifiers; `none` models the JS value `undefined`
(optional chaining on a missing second segment). -/
def splitSecondStartsWithB (registration : String) : Option Bool :=
  ((splitOnChar '-' registration.data)[1]?).map (segStartsWith 'B')

/-- JS truthiness of a `Bool`-or-`undefined` value: `undefined` is falsy. -/
def truthy : Option Bool → Bool
  | some b => b
  | none => false

/-- `COLORS.ACTIVE` in `MapContainer.jsx`. -/
def COLOR_ACTIVE : String := "#00FF00"

/-- `COLORS.INACTIVE` in `MapContainer.jsx`. -/
def COLOR_INACTIVE : String := "#FF0000"

/-- Return shape of `getDroneStatus` in `MapContainer.jsx`:
`{ isFlyable, color, status }` (`isFlyable` can be JS `undefined`). -/
structure DroneStatusInfo where
  isFlyable : Option Bool
  color : String
  status : String
deriving DecidableEq

/-- `getDroneStatus` from `MapContainer.jsx` (the Status Classifier):
`const isFlyable = registration.split("-")[1]?.startsWith("B");
 return { isFlyable, color: isFlyable ? ACTIVE : INACTIVE,
          status: isFlyable ? "Active" : "Inactive" }`. -/
def getDroneStatus (registration : String) : DroneStatusInfo :=
  let isFlyable := splitSecondStartsWithB registration
  { isFlyable := isFlyable
    color := if truthy isFlyable then COLOR_ACTIVE else COLOR_INACTIVE
    status := if truthy isFlyable then "Active" else "Inactive" }

/-- `isDroneActive` from `MapPage.jsx`, used by the Statistics Aggregator:
`return !registration.split("-")[1]?.startsWith(DRONE_STATUS.ACTIVE_PREFIX)`
(note the leading `!`). -/
def isDroneActive (registration : String) : Bool :=
  !(truthy (splitSecondStartsWithB registration))

/-! ## Data model for the Drone State Store (`MapPage.jsx`) -/

/-- A coordinate pair `[lng, lat]`; JS numbers modelled by rationals. -/
abbrev Point := ℚ × ℚ

/-- A JS object of descriptive attribute fields (the feed's `properties`),
as an association list in insertion order; JS objects never hold a key
twice, assignment overrides in place. -/
abbrev PropMap := List (String × String)

/-- JS property assignment `m[k] = v` on an object: override the existing
entry for `k` in place, or append a fresh entry. -/
def objSet (m : PropMap) (k v : String) : PropMap :=
  if m.any (fun p => p.1 == k) then
    m.map (fun p => if p.1 == k then (k, v) else p)
  else m ++ [(k, v)]

/-- JS object spread `{...a, ...b}`: assign every entry of `b` over `a`
(entries of `b` override those of `a`; entries of `a` absent from `b`
are retained). -/
def objAssign (a b : PropMap) : PropMap :=
  b.foldl (fun m p => objSet m p.1 p.2) a

/-- A GeoJSON geometry as the merge uses it: its `coordinates` field may
be the JS value `undefined` (`none`). -/
structure Geometry where
  coordinates : Option Point
deriving DecidableEq

/-- One incoming feature of a feed message.  Either object may be missing
(`undefined`), which makes the property accesses in `mergeDroneData`
throw. -/
structure Feature where
  properties : Option PropMap
  geometry : Option Geometry
deriving DecidableEq

/-- A stored DroneRecord, the element shape of the `droneData` array:
the feature's fields plus the accumulated `positions` history
(each entry is a `geometry.coordinates` value, possibly `undefined`). -/
structure Drone where
  properties : PropMap
  geometry : Option Geometry
  positions : List (Option Point)
deriving DecidableEq

/-- An inbound socket message: `newData.features`. -/
structure FeedMessage where
  features : List Feature
deriving DecidableEq

/-- `drone.properties.registration` of a stored record (`none` = the
field is absent, i.e. JS `undefined`). -/
def registrationOf (d : Drone) : Option String :=
  d.properties.lookup "registration"

/-! ## `mergeDroneData` (`MapPage.jsx`, lines 78-109)

The JS loop body is embedded as `mergeOne`; a thrown `TypeError`
(reading `.registration` of an `undefined` `properties`, or
`.coordinates` of an `undefined` `geometry`) is `Except.error`.
`findIndex` followed by an in-place element update is embedded as the
recursive `updateExisting`, which rebuilds the list with the first
matching record replaced and returns `none` when no record matches. -/

/-- `updated.findIndex(d => d.properties.registration === registration)`
followed by the in-place update of that element: the first record whose
registration (JS `===`, where `undefined === undefined`) equals the
update's registration is replaced by
`{...existing, positions: [...existing.positions, g.coordinates],
  geometry: g, properties: {...existing.properties, ...props}}`. -/
def updateExisting (props : PropMap) (g : Geometry) : List Drone → Option (List Drone)
  | [] => none
  | d :: rest =>
    if registrationOf d == props.lookup "registration" then
      some ({ properties := objAssign d.properties props
              geometry := some g
              positions := d.positions ++ [g.coordinates] } :: rest)
    else
      (updateExisting props g rest).map (fun l => d :: l)

/-- The body of `newData.features.forEach(...)` for one feature:
reading `newDrone.properties.registration` throws if `properties` is
`undefined`; reading `newDrone.geometry.coordinates` (in both branches)
throws if `geometry` is `undefined`; otherwise the first matching record
is updated, or `{...newDrone, positions: [newDrone.geometry.coordinates]}`
is pushed. -/
def mergeOne (updated : List Drone) (f : Feature) : Except String (List Drone) :=
  match f.properties with
  | none => .error "TypeError: properties undefined"
  | some props =>
    match f.geometry with
    | none => .error "TypeError: geometry undefined"
    | some g =>
      match updateExisting props g updated with
      | some updated2 => .ok updated2
      | none => .ok (updated ++ [{ properties := props
                                   geometry := some g
                                   positions := [g.coordinates] }])

/-- The `forEach` loop over `newData.features`, left to right; a throw
aborts the whole merge. -/
def mergeFeatures (updated : List Drone) : List Feature → Except String (List Drone)
  | [] => .ok updated
  | f :: rest =>
    match mergeOne updated f with
    | .error e => .error e
    | .ok updated2 => mergeFeatures updated2 rest

/-- `mergeDroneData(previousData, newData)` from `MapPage.jsx`. -/
def mergeDroneData (previousData : List Drone) (newData : FeedMessage) :
    Except String (List Drone) :=
  mergeFeatures previousData newData.features

/-! ## `calculateDroneStats` (`MapPage.jsx`, lines 56-69) -/

/-- The statistics object `{active, inactive, total}`. -/
structure DroneStats where
  active : Nat
  inactive : Nat
  total : Nat
deriving DecidableEq

/-- Reading `drone.properties.registration` for classification: JS throws
(`undefined.split`) when the field is absent. -/
def getRegistration (d : Drone) : Except String String :=
  match registrationOf d with
  | some r => .ok r
  | none => .error "TypeError: split of undefined"

/-- JS `Array.prototype.filter` with a possibly-throwing predicate,
left to right; the first throw aborts. -/
def filterJS (p : Drone → Except String Bool) : List Drone → Except String (List Drone)
  | [] => .ok []
  | d :: rest =>
    match p d with
    | .error e => .error e
    | .ok b =>
      match filterJS p rest with
      | .error e => .error e
      | .ok tail => .ok (if b then d :: tail else tail)

/-- `calculateDroneStats(droneData)` from `MapPage.jsx`: two filter
passes with `isDroneActive` and its negation, then the three lengths. -/
def calculateDroneStats (droneData : List Drone) : Except String DroneStats :=
  match filterJS (fun d => (getRegistration d).map isDroneActive) droneData with
  | .error e => .error e
  | .ok activeDrones =>
    match filterJS (fun d => (getRegistration d).map (fun r => !isDroneActive r)) droneData with
    | .error e => .error e
    | .ok inactiveDrones =>
      .ok { active := activeDrones.length
            inactive := inactiveDrones.length
            total := droneData.length }

/-! ## `createCurvedPath` (`MapContainer.jsx`, lines 82-121)

`DRONE_CONFIG.CURVE_STEPS = 20`, `CURVE_OFFSET_FACTOR = 0.3`,
`MAX_CURVE_OFFSET = 0.01`.  `Math.sqrt` only enters through the
curve-control offset; it is passed in as an uninterpreted function
`sqrt : ℚ → ℚ`, so every theorem below holds for the actual
floating-point square root in particular. -/

def CURVE_STEPS : Nat := 20

def CURVE_OFFSET_FACTOR : ℚ := 3 / 10

def MAX_CURVE_OFFSET : ℚ := 1 / 100

/-- `curveOffset = Math.min(distance * CURVE_OFFSET_FACTOR, MAX_CURVE_OFFSET)`
with `distance = sqrt(dx*dx + dy*dy)`. -/
def curveOffsetOf (sqrt : ℚ → ℚ) (start endp : Point) : ℚ :=
  min (sqrt ((endp.1 - start.1) * (endp.1 - start.1) +
             (endp.2 - start.2) * (endp.2 - start.2)) * CURVE_OFFSET_FACTOR)
    MAX_CURVE_OFFSET

/-- The control point `[controlLng, controlLat] =
[midLng - dy*curveOffset, midLat + dx*curveOffset]`. -/
def controlOf (start endp : Point) (off : ℚ) : Point :=
  ((start.1 + endp.1) / 2 - (endp.2 - start.2) * off,
   (start.2 + endp.2) / 2 + (endp.1 - start.1) * off)

/-- One sampled point `[lng, lat]` of the quadratic Bezier at parameter
`u` (`u4 = (1-u)^2`, `u2 = u^2` in the source). -/
def bezierPt (start endp ctrl : Point) (u : ℚ) : Point :=
  ((1 - u) * (1 - u) * start.1 + 2 * (1 - u) * u * ctrl.1 + u * u * endp.1,
   (1 - u) * (1 - u) * start.2 + 2 * (1 - u) * u * ctrl.2 + u * u * endp.2)

/-- The `t` values pushed for segment `i`:
`for (t = 0; t <= CURVE_STEPS; t++) ... if (t > 0 || i === 0) push`. -/
def sampleTs (i : Nat) : List Nat :=
  (List.range (CURVE_STEPS + 1)).filter (fun t => decide (0 < t) || decide (i = 0))

/-- All points pushed for segment `i` from `start` to `endp`. -/
def segmentSamples (sqrt : ℚ → ℚ) (i : Nat) (start endp : Point) : List Point :=
  (sampleTs i).map (fun t : Nat =>
    bezierPt start endp (controlOf start endp (curveOffsetOf sqrt start endp))
      ((t : ℚ) / (CURVE_STEPS : ℚ)))

/-- The outer `for (i = 0; i < coordinates.length - 1; i++)` loop:
concatenates the samples of each consecutive pair. -/
def segmentsFrom (sqrt : ℚ → ℚ) : Nat → List Point → List Point
  | _, [] => []
  | _, [_] => []
  | i, a :: b :: rest => segmentSamples sqrt i a b ++ segmentsFrom sqrt (i + 1) (b :: rest)

/-- `createCurvedPath(coordinates)` from `MapContainer.jsx`: length < 2
returns the input unchanged, otherwise `curvedCoords` is seeded with
`coordinates[0]` and the per-segment samples are appended. -/
def createCurvedPath (sqrt : ℚ → ℚ) (coordinates : List Point) : List Point :=
  if coordinates.length < 2 then coordinates
  else
    match coordinates with
    | [] => []
    | c0 :: _ => c0 :: segmentsFrom sqrt 0 coordinates

/-! ## Selection state machine (`MapContainer.jsx`)

`resetSelection` ignores user map interactions while
`isProgrammaticMove.current` is set; the `flyTo` effect sets the flag on
selection and a `setTimeout(…, ANIMATION_BUFFER)` clears it
`ANIMATION_BUFFER` ms later.  Time is explicit: the guard is in force
strictly before `guardUntil`. -/

def FLY_DURATION : ℚ := 1000

def ANIMATION_BUFFER : ℚ := 1100

/-- The selection-relevant state: `selectedDrone` (`none` = Unselected)
and the instant until which `isProgrammaticMove` remains set. -/
structure SelectionState where
  selectedDrone : Option String
  guardUntil : ℚ
deriving DecidableEq

/-- The two event kinds acting on the selection state: an explicit
selection of a drone (marker or list click, which triggers the `flyTo`
camera animation and arms the guard), and any user-initiated map
interaction (drag, wheel, box-zoom, double-click, touch, background
click), each stamped with its arrival time. -/
inductive SelEvent where
  | select (r : String) (time : ℚ)
  | interact (time : ℚ)

/-- One step of the selection machine: selecting `r` at time `t` stores
`r` and arms the guard until `t + ANIMATION_BUFFER`; a user interaction
inside the guard window is swallowed by `resetSelection`'s guard clause,
after the window it clears the selection. -/
def selStep (s : SelectionState) : SelEvent → SelectionState
  | .select r t => { selectedDrone := some r, guardUntil := t + ANIMATION_BUFFER }
  | .interact t => if t < s.guardUntil then s else { s with selectedDrone := none }

/-! ## Reachable store states -/

/-- The per-record invariant of §3 of the spec: every record's history is
nonempty, its geometry is defined, and the last history entry equals the
record's current position (`geometry.coordinates`). -/
def storeInv (l : List Drone) : Prop :=
  ∀ d ∈ l, d.positions ≠ [] ∧
    ∃ g, d.geometry = some g ∧ d.positions.getLast? = some g.coordinates

/-- Store states reachable from the empty store by successful merges. -/
inductive Reachable : List Drone → Prop
  | empty : Reachable []
  | merge (prev : List Drone) (batch : FeedMessage) (next : List Drone) :
      Reachable prev → mergeDroneData prev batch = .ok next → Reachable next

/-! # Theorems -/

/-! ## Status classification (claims C2, C3) -/

/-- C2: the claim asserts that `isDroneActive` (MapPage) and
`getDroneStatus` (MapContainer) are extensionally equal classifiers.
They are not: on `"R1-B1"` the Status Classifier says Active while
`isDroneActive` — whose own constant `ACTIVE_PREFIX = "B"` and doc
comment promise the §4.2 rule — returns `false`, and on `"R2-A1"` the
two disagree the other way around: the leading `!` in `isDroneActive`
negates the documented rule. -/
theorem C2_classifiers_disagree :
    isDroneActive "R1-B1" = false ∧ (getDroneStatus "R1-B1").status = "Active" ∧
    isDroneActive "R2-A1" = true ∧ (getDroneStatus "R2-A1").status = "Inactive" := by
  decide

/-- C3: for every registration whose second `'-'`-separated segment
starts with `'B'` the Status Classifier returns Active (and the active
color); if the second segment starts with `'A'`, or there is no second
segment at all, it returns Inactive; and on every input whatsoever the
classifier returns one of the two defined statuses (it is total, so no
caller ever receives an error). -/
theorem C3_status_classifier (reg : String) :
    (∀ s, (splitOnChar '-' reg.data)[1]? = some s → segStartsWith 'B' s = true →
      (getDroneStatus reg).status = "Active" ∧ (getDroneStatus reg).color = COLOR_ACTIVE) ∧
    (∀ s, (splitOnChar '-' reg.data)[1]? = some s → segStartsWith 'A' s = true →
      (getDroneStatus reg).status = "Inactive") ∧
    ((splitOnChar '-' reg.data)[1]? = none → (getDroneStatus reg).status = "Inactive") ∧
    ((getDroneStatus reg).status = "Active" ∨ (getDroneStatus reg).status = "Inactive") := by
  refine ⟨?_, ?_, ?_, ?_⟩
  · intro s hs hB
    simp [getDroneStatus, splitSecondStartsWithB, hs, truthy, hB]
  · intro s hs hA
    match s, hA with
    | c :: _, hA =>
      have hc : c = 'A' := by simpa [segStartsWith] using hA
      simp [getDroneStatus, splitSecondStartsWithB, hs, truthy, segStartsWith, hc]
  · intro hnone
    simp [getDroneStatus, splitSecondStartsWithB, hnone, truthy]
  · by_cases h : truthy (splitSecondStartsWithB reg) <;> simp [getDroneStatus, h]

/-- Witness for C3 at the concrete registrations `"R1-B1"`, `"R2-A1"`
and the malformed `"R5"`. -/
theorem C3_witness :
    ((getDroneStatus "R1-B1").status = "Active" ∧ (getDroneStatus "R1-B1").color = "#00FF00") ∧
    (getDroneStatus "R2-A1").status = "Inactive" ∧
    (getDroneStatus "R5").status = "Inactive" := by
  refine ⟨(C3_status_classifier "R1-B1").1 ("B1".data) (by decide) (by decide), ?_, ?_⟩
  · exact (C3_status_classifier "R2-A1").2.1 ("A1".data) (by decide) (by decide)
  · exact (C3_status_classifier "R5").2.2.1 (by decide)

/-! ## Statistics aggregation (claims C9, C10) -/

/-- C9: on exactly the two records registered `"R1-B1"` and `"R2-A1"`,
`calculateDroneStats` returns `{active: 1, inactive: 1, total: 2}`
(the code counts `"R2-A1"` as the active one, but the claim only fixes
the counts, which match). -/
theorem C9_stats_concrete :
    calculateDroneStats
      [⟨[("registration", "R1-B1")], some ⟨some (10, 20)⟩, [some (10, 20)]⟩,
       ⟨[("registration", "R2-A1")], some ⟨some (30, 40)⟩, [some (30, 40)]⟩] =
      .ok ⟨1, 1, 2⟩ := by
  rfl

/-- `filterJS` with a predicate that succeeds on every element of the
list behaves as a pure `List.filter`. -/
theorem filterJS_eq_filter (p : Drone → Except String Bool) (q : Drone → Bool)
    (l : List Drone) (h : ∀ d ∈ l, p d = .ok (q d)) :
    filterJS p l = .ok (l.filter q) := by
  induction l with
  | nil => rfl
  | cons d rest ih =>
    have hd : p d = .ok (q d) := h d (by simp)
    have hrest : filterJS p rest = .ok (rest.filter q) :=
      ih (fun e he => h e (by simp [he]))
    simp [filterJS, hd, hrest, List.filter]
    cases q d <;> simp

/-- Splitting a list by a boolean predicate and its negation counts
every element exactly once. -/
theorem length_filter_add_length_filter_not (q : Drone → Bool) (l : List Drone) :
    (l.filter q).length + (l.filter fun d => !q d).length = l.length := by
  induction l with
  | nil => rfl
  | cons d rest ih =>
    cases hq : q d <;> simp [List.filter, hq] <;> omega

/-- C10: on every record array in which each record carries a
registration string, `calculateDroneStats` succeeds and its counts
satisfy `active + inactive = total` with `total` the number of records:
each record is counted exactly once, as active or as inactive. -/
theorem C10_stats_partition (droneData : List Drone)
    (h : ∀ d ∈ droneData, (registrationOf d).isSome = true) :
    ∃ s, calculateDroneStats droneData = .ok s ∧
      s.active + s.inactive = s.total ∧ s.total = droneData.length := by
  have hreg : ∀ d ∈ droneData, ∃ r, getRegistration d = .ok r := by
    intro d hd
    rcases Option.isSome_iff_exists.mp (h d hd) with ⟨r, hr⟩
    exact ⟨r, by simp [getRegistration, hr]⟩
  have hact : filterJS (fun d => (getRegistration d).map isDroneActive) droneData =
      .ok (droneData.filter fun d => isDroneActive ((registrationOf d).getD "")) := by
    refine filterJS_eq_filter _ _ _ (fun d hd => ?_)
    rcases hreg d hd with ⟨r, hr⟩
    have hsome : registrationOf d = some r := by
      revert hr; unfold getRegistration; cases registrationOf d <;> simp
    simp [hr, hsome, Except.map]
  have hinact : filterJS (fun d => (getRegistration d).map fun r => !isDroneActive r)
      droneData =
      .ok (droneData.filter fun d => !isDroneActive ((registrationOf d).getD "")) := by
    refine filterJS_eq_filter _ _ _ (fun d hd => ?_)
    rcases hreg d hd with ⟨r, hr⟩
    have hsome : registrationOf d = some r := by
      revert hr; unfold getRegistration; cases registrationOf d <;> simp
    simp [hr, hsome, Except.map]
  refine ⟨⟨(droneData.filter fun d => isDroneActive ((registrationOf d).getD "")).length,
    (droneData.filter fun d => !isDroneActive ((registrationOf d).getD "")).length,
    droneData.length⟩, ?_, ?_, rfl⟩
  · simp only [calculateDroneStats]
    rw [hact, hinact]
  · exact length_filter_add_length_filter_not _ droneData

/-- Witness for C10 on a concrete three-record array. -/
theorem C10_witness :
    ∃ s, calculateDroneStats
        [⟨[("registration", "AA-B7")], none, []⟩,
         ⟨[("registration", "CC-A2")], none, []⟩,
         ⟨[("registration", "nodash")], none, []⟩] = .ok s ∧
      s.active + s.inactive = s.total ∧ s.total = 3 := by
  exact C10_stats_partition _ (by decide)

/-! ## Selection state machine (claim C6) -/

/-- C6: starting from an unselected state, selecting `R1` at time `t0`
yields `Selected(R1)` and arms the camera-fly guard window
`[t0, t0 + ANIMATION_BUFFER)`; a user map interaction (pan) strictly
inside the window leaves the whole state unchanged (still
`Selected(R1)`), while the same interaction strictly after the window
has elapsed clears the selection. -/
theorem C6_selection_guard (s0 : SelectionState) (t0 t1 t2 : ℚ)
    (h0 : s0.selectedDrone = none)
    (h1 : t1 < t0 + ANIMATION_BUFFER)
    (h2 : t0 + ANIMATION_BUFFER < t2) :
    (selStep s0 (.select "R1" t0)).selectedDrone = some "R1" ∧
    (selStep s0 (.select "R1" t0)).guardUntil = t0 + ANIMATION_BUFFER ∧
    selStep (selStep s0 (.select "R1" t0)) (.interact t1) =
      selStep s0 (.select "R1" t0) ∧
    (selStep (selStep s0 (.select "R1" t0)) (.interact t2)).selectedDrone = none := by
  refine ⟨rfl, rfl, ?_, ?_⟩
  · simp [selStep, h1]
  · have : ¬ t2 < t0 + ANIMATION_BUFFER := not_lt.mpr (le_of_lt h2)
    simp [selStep, this]

/-- Witness for C6: select at time 0, pan at 500 (inside the 1100 ms
guard window), pan at 2000 (after it). -/
theorem C6_witness :
    (selStep ⟨none, 0⟩ (.select "R1" 0)).selectedDrone = some "R1" ∧
    (selStep ⟨none, 0⟩ (.select "R1" 0)).guardUntil = 0 + ANIMATION_BUFFER ∧
    selStep (selStep ⟨none, 0⟩ (.select "R1" 0)) (.interact 500) =
      selStep ⟨none, 0⟩ (.select "R1" 0) ∧
    (selStep (selStep ⟨none, 0⟩ (.select "R1" 0)) (.interact 2000)).selectedDrone = none := by
  exact C6_selection_guard ⟨none, 0⟩ 0 500 2000 rfl (by norm_num [ANIMATION_BUFFER])
    (by norm_num [ANIMATION_BUFFER])

/-! ## Drone State Store merge (claims C1, C4, C7) -/

/-- `List.lookup` on a cons cell, written as an `if`. -/
theorem lookup_cons (k a b : String) (l : PropMap) :
    List.lookup k ((a, b) :: l) = if k == a then some b else List.lookup k l := by
  cases h : k == a <;> simp [List.lookup, h]

/-- Overriding every entry keyed `k1` in place leaves lookups of any
other key unchanged. -/
theorem lookup_map_override (k k1 v : String) (hk : (k == k1) = false) :
    ∀ m : PropMap,
      (m.map fun p => if p.1 == k1 then (k1, v) else p).lookup k = m.lookup k := by
  intro m
  induction m with
  | nil => rfl
  | cons p rest ih =>
    rcases p with ⟨a, b⟩
    by_cases ha : (a == k1) = true
    · have ha1 : a = k1 := by simpa using ha
      subst ha1
      have hc : (((a, b).1 == a) = true) := by simp
      rw [List.map_cons, if_pos hc, lookup_cons, lookup_cons, hk, ih]
      simp
    · simp only [List.map_cons]
      rw [if_neg ha]
      rw [lookup_cons, lookup_cons, ih]

/-- Appending a fresh entry keyed `k1` leaves lookups of any other key
unchanged. -/
theorem lookup_append_single (k k1 v : String) (hk : (k == k1) = false) :
    ∀ m : PropMap, (m ++ [(k1, v)]).lookup k = m.lookup k := by
  intro m
  induction m with
  | nil => simp [List.lookup, hk]
  | cons p rest ih =>
    rcases p with ⟨a, b⟩
    rw [List.cons_append, lookup_cons, lookup_cons, ih]

/-- Assigning under key `k1` leaves lookups of any other key unchanged. -/
theorem lookup_objSet_ne (k k1 v : String) (hk : (k == k1) = false) (m : PropMap) :
    (objSet m k1 v).lookup k = m.lookup k := by
  unfold objSet
  by_cases hany : (m.any fun p => p.1 == k1) = true
  · rw [if_pos hany]
    exact lookup_map_override k k1 v hk m
  · rw [if_neg hany]
    exact lookup_append_single k k1 v hk m

/-- Keys absent from the spread-in object keep their previous values:
`{...a, ...b}[k] = a[k]` whenever `b` has no entry for `k`. -/
theorem lookup_objAssign_of_not_mem (k : String) :
    ∀ (b a : PropMap), b.lookup k = none → (objAssign a b).lookup k = a.lookup k := by
  intro b
  induction b with
  | nil => intro a _; rfl
  | cons p rest ih =>
    intro a hb
    rcases p with ⟨a1, b1⟩
    have hk : (k == a1) = false := by
      cases hx : k == a1
      · rfl
      · rw [lookup_cons, hx, if_pos rfl] at hb
        exact absurd hb (by simp)
    have hrest : rest.lookup k = none := by
      rw [lookup_cons, hk] at hb
      simpa using hb
    calc (objAssign a ((a1, b1) :: rest)).lookup k
        = (objAssign (objSet a a1 b1) rest).lookup k := rfl
      _ = (objSet a a1 b1).lookup k := ih _ hrest
      _ = a.lookup k := lookup_objSet_ne k a1 b1 hk a

/-- `findIndex` + in-place update on a list split around the first
matching record: everything before the match is kept, the match is
replaced by the merged record, everything after is untouched. -/
theorem updateExisting_append (props : PropMap) (g : Geometry)
    (prev₁ prev₂ : List Drone) (d : Drone)
    (hnomatch : ∀ e ∈ prev₁, (registrationOf e == props.lookup "registration") = false)
    (hmatch : (registrationOf d == props.lookup "registration") = true) :
    updateExisting props g (prev₁ ++ d :: prev₂) =
      some (prev₁ ++ { properties := objAssign d.properties props
                       geometry := some g
                       positions := d.positions ++ [g.coordinates] } :: prev₂) := by
  induction prev₁ with
  | nil => simp [updateExisting, hmatch]
  | cons e rest ih =>
    have he : (registrationOf e == props.lookup "registration") = false :=
      hnomatch e (by simp)
    have hrest := ih (fun x hx => hnomatch x (by simp [hx]))
    simp [updateExisting, he, hrest]

/-- C1 (amended): merging an update whose registration matches an
existing DroneRecord appends the update's position to that record's
history (prior entries unchanged and in order), sets the record's
geometry — hence its current position — to the update's geometry, and
replaces `attributes` by the JS spread
`{...existing.properties, ...update.properties}`: update fields
override, but fields present before the update and absent from it are
RETAINED, not dropped. -/
theorem C1_merge_existing_appends_and_spreads
    (prev₁ prev₂ : List Drone) (d : Drone) (f : Feature)
    (props : PropMap) (g : Geometry)
    (hp : f.properties = some props) (hg : f.geometry = some g)
    (hnomatch : ∀ e ∈ prev₁, (registrationOf e == props.lookup "registration") = false)
    (hmatch : (registrationOf d == props.lookup "registration") = true) :
    mergeDroneData (prev₁ ++ d :: prev₂) ⟨[f]⟩ =
      .ok (prev₁ ++ { properties := objAssign d.properties props
                      geometry := some g
                      positions := d.positions ++ [g.coordinates] } :: prev₂) ∧
    ∀ k, props.lookup k = none →
      (objAssign d.properties props).lookup k = d.properties.lookup k := by
  constructor
  · simp only [mergeDroneData, mergeFeatures, mergeOne, hp, hg]
    rw [updateExisting_append props g prev₁ prev₂ d hnomatch hmatch]
  · intro k hk
    exact lookup_objAssign_of_not_mem k props d.properties hk

/-- Witness for the amended C1: a second update for `R1` at `(11,21)`
merged into a store holding `R1` at `(10,20)`. -/
theorem C1_witness :
    mergeDroneData
      [⟨[("registration", "R1"), ("pilot", "Bob")], some ⟨some (10, 20)⟩, [some (10, 20)]⟩]
      ⟨[⟨some [("registration", "R1"), ("yaw", "90")], some ⟨some (11, 21)⟩⟩]⟩ =
      .ok [{ properties := objAssign [("registration", "R1"), ("pilot", "Bob")]
                             [("registration", "R1"), ("yaw", "90")]
             geometry := some ⟨some (11, 21)⟩
             positions := [some (10, 20)] ++ [some (11, 21)] }] ∧
    ∀ k, ([("registration", "R1"), ("yaw", "90")] : PropMap).lookup k = none →
      (objAssign [("registration", "R1"), ("pilot", "Bob")]
        [("registration", "R1"), ("yaw", "90")]).lookup k =
        ([("registration", "R1"), ("pilot", "Bob")] : PropMap).lookup k := by
  exact C1_merge_existing_appends_and_spreads [] []
    ⟨[("registration", "R1"), ("pilot", "Bob")], some ⟨some (10, 20)⟩, [some (10, 20)]⟩
    ⟨some [("registration", "R1"), ("yaw", "90")], some ⟨some (11, 21)⟩⟩
    [("registration", "R1"), ("yaw", "90")] ⟨some (11, 21)⟩
    rfl rfl (by simp) (by decide)

/-- C1 counterexample: the claim as stated says a field present before
the update but absent from the update is dropped.  Concretely: the
stored `R1` has a `pilot` field, the update has none, and after the
merge the record still maps `pilot` to `"Alice"` — the field is
retained, so the claim is false on this input. -/
theorem C1_counterexample :
    (([("registration", "R1"), ("altitude", "100")] : PropMap).lookup "pilot" = none) ∧
    mergeDroneData
      [⟨[("registration", "R1"), ("pilot", "Alice")], some ⟨some (10, 20)⟩, [some (10, 20)]⟩]
      ⟨[⟨some [("registration", "R1"), ("altitude", "100")], some ⟨some (11, 21)⟩⟩]⟩ =
      .ok [⟨[("registration", "R1"), ("pilot", "Alice"), ("altitude", "100")],
            some ⟨some (11, 21)⟩, [some (10, 20), some (11, 21)]⟩] ∧
    ([("registration", "R1"), ("pilot", "Alice"), ("altitude", "100")] : PropMap).lookup
      "pilot" = some "Alice" := by
  exact ⟨rfl, rfl, rfl⟩

/-- C4 counterexample: a batch whose first update lacks its geometry
(`coordinates` unreadable) followed by a perfectly well-formed update
for `R2`.  The claim says the malformed update is discarded, the rest of
the batch still applies and no exception propagates; in fact the merge
throws a `TypeError` and produces no updated store at all, so the
well-formed `R2` update is never applied. -/
theorem C4_counterexample :
    mergeDroneData []
      ⟨[⟨some [("registration", "M1")], none⟩,
        ⟨some [("registration", "R2")], some ⟨some (5, 6)⟩⟩]⟩ =
      .error "TypeError: geometry undefined" := by
  rfl

/-- A single merge step only succeeds on a feature whose `properties`
and `geometry` are both defined. -/
theorem mergeOne_ok_wellformed (updated l : List Drone) (f : Feature)
    (h : mergeOne updated f = .ok l) :
    f.properties ≠ none ∧ f.geometry ≠ none := by
  unfold mergeOne at h
  cases hp : f.properties with
  | none => rw [hp] at h; exact absurd h (by simp)
  | some props =>
    cases hg : f.geometry with
    | none => rw [hp, hg] at h; exact absurd h (by simp)
    | some g => exact ⟨by simp [hp], by simp [hg]⟩

/-- C4 (amended): a malformed update — one whose `properties` object or
whose `geometry` object is missing — is not discarded: processing it
throws a `TypeError`, so the whole merge reports an error to the caller
and yields no updated store (the updates after the malformed one are
never applied; the caller's state keeps the previous value). -/
theorem C4_malformed_update_throws (prev : List Drone) (newData : FeedMessage)
    (h : ∃ f ∈ newData.features, f.properties = none ∨ f.geometry = none) :
    ∃ msg, mergeDroneData prev newData = .error msg := by
  rcases newData with ⟨features⟩
  simp only [mergeDroneData] at h ⊢
  induction features generalizing prev with
  | nil => simp at h
  | cons f rest ih =>
    rcases h with ⟨f0, hf0, hbad⟩
    rcases List.mem_cons.mp hf0 with heq | hmem
    · subst heq
      rcases hbad with hp | hg
      · exact ⟨"TypeError: properties undefined", by simp [mergeFeatures, mergeOne, hp]⟩
      · cases hps : f0.properties with
        | none => exact ⟨"TypeError: properties undefined",
            by simp [mergeFeatures, mergeOne, hps]⟩
        | some props => exact ⟨"TypeError: geometry undefined",
            by simp [mergeFeatures, mergeOne, hps, hg]⟩
    · cases hstep : mergeOne prev f with
      | error e => exact ⟨e, by simp [mergeFeatures, hstep]⟩
      | ok u2 =>
        rcases ih u2 ⟨f0, hmem, hbad⟩ with ⟨msg, hmsg⟩
        exact ⟨msg, by simp [mergeFeatures, hstep, hmsg]⟩

/-- Witness for the amended C4: the counterexample batch, merged into a
store already holding one record. -/
theorem C4_witness :
    ∃ msg, mergeDroneData [⟨[("registration", "R2")], some ⟨some (1, 2)⟩, [some (1, 2)]⟩]
      ⟨[⟨some [("registration", "M1")], none⟩,
        ⟨some [("registration", "R2")], some ⟨some (5, 6)⟩⟩]⟩ = .error msg := by
  exact C4_malformed_update_throws _ _ ⟨⟨some [("registration", "M1")], none⟩,
    by simp, Or.inr rfl⟩

/-- The in-place update of an existing record preserves the store
invariant: the updated record's history is the old one with the new
position appended (nonempty, last element the new `coordinates`), and
its geometry is the update's geometry. -/
theorem storeInv_updateExisting (props : PropMap) (g : Geometry) :
    ∀ (l l' : List Drone), storeInv l → updateExisting props g l = some l' →
      storeInv l' := by
  intro l
  induction l with
  | nil => intro l' _ h; exact absurd h (by simp [updateExisting])
  | cons d rest ih =>
    intro l' hinv h
    unfold updateExisting at h
    by_cases hm : (registrationOf d == props.lookup "registration") = true
    · rw [if_pos hm] at h
      rcases Option.some.injEq .. ▸ h with rfl
      intro e he
      rcases List.mem_cons.mp he with rfl | hrest
      · refine ⟨by simp, g, rfl, ?_⟩
        simp [List.getLast?_concat]
      · exact hinv e (List.mem_cons_of_mem d hrest)
    · rw [if_neg hm] at h
      cases hrec : updateExisting props g rest with
      | none => rw [hrec] at h; exact absurd h (by simp)
      | some rest' =>
        rw [hrec] at h
        have hl' : l' = d :: rest' := by
          have := h
          simp only [Option.map_some] at this
          exact (Option.some.injEq .. ▸ this).symm
        subst hl'
        intro e he
        rcases List.mem_cons.mp he with rfl | hrest
        · exact hinv e (by simp)
        · exact ih rest' (fun x hx => hinv x (List.mem_cons_of_mem d hx)) hrec e hrest

/-- One successful merge step preserves the store invariant: an updated
record gets the new position appended and the new geometry, a freshly
pushed record starts with the singleton history of its position. -/
theorem storeInv_mergeOne (f : Feature) :
    ∀ (l l' : List Drone), storeInv l → mergeOne l f = .ok l' → storeInv l' := by
  intro l l' hinv h
  unfold mergeOne at h
  cases hp : f.properties with
  | none => rw [hp] at h; exact absurd h (by simp)
  | some props =>
    rw [hp] at h
    cases hg : f.geometry with
    | none => rw [hg] at h; exact absurd h (by simp)
    | some g =>
      rw [hg] at h
      dsimp only at h
      cases hu : updateExisting props g l with
      | some l2 =>
        rw [hu] at h
        have : l2 = l' := by simpa using h
        subst this
        exact storeInv_updateExisting props g l _ hinv hu
      | none =>
        rw [hu] at h
        have hl' : l' = l ++ [⟨props, some g, [g.coordinates]⟩] := by
          simpa using h.symm
        subst hl'
        intro e he
        rcases List.mem_append.mp he with hmem | hnew
        · exact hinv e hmem
        · rcases List.mem_singleton.mp hnew with rfl
          exact ⟨by simp, g, rfl, by simp⟩

/-- Folding a whole batch of features through successful merge steps
preserves the store invariant. -/
theorem storeInv_mergeFeatures :
    ∀ (fs : List Feature) (l l' : List Drone), storeInv l →
      mergeFeatures l fs = .ok l' → storeInv l' := by
  intro fs
  induction fs with
  | nil =>
    intro l l' hinv h
    have : l = l' := by simpa [mergeFeatures] using h
    exact this ▸ hinv
  | cons f rest ih =>
    intro l l' hinv h
    unfold mergeFeatures at h
    cases hstep : mergeOne l f with
    | error e => rw [hstep] at h; exact absurd h (by simp)
    | ok l2 =>
      rw [hstep] at h
      exact ih l2 l' (storeInv_mergeOne f l l2 hinv hstep) h

/-- C7: every store state reachable from the empty store by successful
merges satisfies the invariant: each DroneRecord has a nonempty
`positionHistory` whose last element equals the record's current
position (its `geometry.coordinates`).  The invariant is established
when a record is created (singleton history) and preserved by every
later merge. -/
theorem C7_history_invariant (l : List Drone) (h : Reachable l) : storeInv l := by
  induction h with
  | empty => intro d hd; exact absurd hd (by simp)
  | merge prev batch next _ hmerge ih =>
    exact storeInv_mergeFeatures batch.features prev next ih hmerge

/-- Witness for C7: the store obtained by one concrete merge into the
empty store satisfies the invariant. -/
theorem C7_witness :
    storeInv [⟨[("registration", "W1")], some ⟨some (10, 20)⟩, [some (10, 20)]⟩] := by
  exact C7_history_invariant _
    (Reachable.merge [] ⟨[⟨some [("registration", "W1")], some ⟨some (10, 20)⟩⟩]⟩
      [⟨[("registration", "W1")], some ⟨some (10, 20)⟩, [some (10, 20)]⟩]
      Reachable.empty rfl)

/-! ## Curve Smoother (claims C5, C8) -/

/-- At parameter 0 the Bezier sample is exactly the segment start. -/
theorem bezierPt_zero (a b c : Point) : bezierPt a b c 0 = a := by
  refine Prod.ext ?_ ?_ <;> simp [bezierPt]

/-- At parameter 1 the Bezier sample is exactly the segment end. -/
theorem bezierPt_one (a b c : Point) : bezierPt a b c 1 = b := by
  refine Prod.ext ?_ ?_ <;> simp [bezierPt]

/-- The quadratic Bezier through the source's perpendicular control
point never revisits a point at two distinct parameters, for any offset
value whatsoever: the perpendicular construction makes the difference
vector have a component along the segment, so it can only vanish when
the segment is degenerate. -/
theorem bezierPt_injOn (a b : Point) (off : ℚ) (hab : a ≠ b) (u1 u2 : ℚ)
    (hu : u1 ≠ u2) :
    bezierPt a b (controlOf a b off) u1 ≠ bezierPt a b (controlOf a b off) u2 := by
  intro heq
  have hsub : u1 - u2 ≠ 0 := sub_ne_zero.mpr hu
  simp only [bezierPt, controlOf, Prod.mk.injEq] at heq
  obtain ⟨h1, h2⟩ := heq
  have e1 : (u1 - u2) * ((b.1 - a.1) - 2 * off * (b.2 - a.2) * (1 - (u1 + u2))) = 0 := by
    linear_combination h1
  have e2 : (u1 - u2) * ((b.2 - a.2) + 2 * off * (b.1 - a.1) * (1 - (u1 + u2))) = 0 := by
    linear_combination h2
  have f1 : (b.1 - a.1) - 2 * off * (b.2 - a.2) * (1 - (u1 + u2)) = 0 :=
    (mul_eq_zero.mp e1).resolve_left hsub
  have f2 : (b.2 - a.2) + 2 * off * (b.1 - a.1) * (1 - (u1 + u2)) = 0 :=
    (mul_eq_zero.mp e2).resolve_left hsub
  have hsum : (b.1 - a.1) ^ 2 + (b.2 - a.2) ^ 2 = 0 := by
    linear_combination (b.1 - a.1) * f1 + (b.2 - a.2) * f2
  have hx : b.1 - a.1 = 0 := by nlinarith [sq_nonneg (b.1 - a.1), sq_nonneg (b.2 - a.2)]
  have hy : b.2 - a.2 = 0 := by nlinarith [sq_nonneg (b.1 - a.1), sq_nonneg (b.2 - a.2)]
  exact hab (Prod.ext (by linarith) (by linarith))

/-- Distinct step indices give distinct Bezier parameters. -/
theorem stepRatio_ne (t1 t2 : Nat) (h : t1 ≠ t2) :
    ((t1 : ℚ) / (CURVE_STEPS : ℚ)) ≠ ((t2 : ℚ) / (CURVE_STEPS : ℚ)) := by
  intro heq
  apply h
  have hc : ((CURVE_STEPS : ℚ)) ≠ 0 := by norm_num [CURVE_STEPS]
  field_simp at heq
  exact_mod_cast heq

/-- For the first segment every step `0..20` is pushed. -/
theorem sampleTs_zero : sampleTs 0 =
    [0, 1, 2, 3, 4, 5, 6, 7, 8, 9, 10, 11, 12, 13, 14, 15, 16, 17, 18, 19, 20] := by
  decide

/-- For every later segment step `0` is skipped and `1..20` are pushed. -/
theorem sampleTs_succ (n : Nat) : sampleTs (n + 1) =
    [1, 2, 3, 4, 5, 6, 7, 8, 9, 10, 11, 12, 13, 14, 15, 16, 17, 18, 19, 20] := by
  have h : sampleTs (n + 1) =
      (List.range (CURVE_STEPS + 1)).filter (fun t => decide (0 < t)) := by
    unfold sampleTs
    congr 1
    funext t
    simp
  rw [h]
  decide

/-- The pushed step indices are strictly increasing, in particular
adjacent ones differ. -/
theorem sampleTs_chain_ne (i : Nat) : List.Chain' (fun t1 t2 => t1 ≠ t2) (sampleTs i) := by
  have hpw : (sampleTs i).Pairwise (· < ·) :=
    (List.pairwise_lt_range (CURVE_STEPS + 1)).sublist (List.filter_sublist _)
  exact (hpw.chain').imp (fun _ _ h => Nat.ne_of_lt h)

/-- The last step index pushed for any segment is `20`. -/
theorem sampleTs_getLast (i : Nat) : (sampleTs i).getLast? = some 20 := by
  cases i with
  | zero => rw [sampleTs_zero]; rfl
  | succ n => rw [sampleTs_succ]; rfl

/-- `getLast?` commutes with `map`. -/
theorem getLast?_map_step (f : Nat → Point) :
    ∀ l : List Nat, (l.map f).getLast? = l.getLast?.map f := by
  intro l
  induction l with
  | nil => rfl
  | cons t rest ih =>
    cases rest with
    | nil => rfl
    | cons t2 rest2 =>
      rw [List.map_cons, List.map_cons, List.getLast?_cons_cons, ← List.map_cons, ih,
        List.getLast?_cons_cons]

/-- Adjacent sampled points of one segment are pairwise distinct (for
any sqrt model, hence any offset). -/
theorem chain'_segmentSamples (sqrt : ℚ → ℚ) (i : Nat) (a b : Point) (hab : a ≠ b) :
    List.Chain' (· ≠ ·) (segmentSamples sqrt i a b) := by
  unfold segmentSamples
  apply (List.chain'_map _).mpr
  exact (sampleTs_chain_ne i).imp
    (fun _ _ ht => bezierPt_injOn a b _ hab _ _ (stepRatio_ne _ _ ht))

/-- Each segment's sample list is nonempty and ends with the exact
segment endpoint. -/
theorem segmentSamples_getLast (sqrt : ℚ → ℚ) (i : Nat) (a b : Point) :
    (segmentSamples sqrt i a b).getLast? = some b := by
  unfold segmentSamples
  rw [getLast?_map_step, sampleTs_getLast]
  have h1 : (((20 : Nat) : ℚ) / (CURVE_STEPS : ℚ)) = 1 := by
    norm_num [CURVE_STEPS]
  show some (bezierPt a b (controlOf a b (curveOffsetOf sqrt a b))
    (((20 : Nat) : ℚ) / (CURVE_STEPS : ℚ))) = some b
  rw [h1, bezierPt_one]

/-- Each segment's sample list is nonempty. -/
theorem segmentSamples_ne_nil (sqrt : ℚ → ℚ) (i : Nat) (a b : Point) :
    segmentSamples sqrt i a b ≠ [] := by
  unfold segmentSamples
  cases i with
  | zero => rw [sampleTs_zero]; simp
  | succ n => rw [sampleTs_succ n]; simp

/-- A later segment's sample list starts with the parameter-`1/20`
sample (step 0 is skipped for `i ≥ 1`). -/
theorem segmentSamples_head_succ (sqrt : ℚ → ℚ) (n : Nat) (a b : Point) :
    (segmentSamples sqrt (n + 1) a b).head? =
      some (bezierPt a b (controlOf a b (curveOffsetOf sqrt a b))
        (((1 : Nat) : ℚ) / (CURVE_STEPS : ℚ))) := by
  unfold segmentSamples
  rw [sampleTs_succ n]
  rfl

/-- The first segment's sample list starts with the exact segment start
(step 0, parameter 0). -/
theorem segmentSamples_head_zero (sqrt : ℚ → ℚ) (a b : Point) :
    (segmentSamples sqrt 0 a b).head? = some a := by
  unfold segmentSamples
  rw [sampleTs_zero]
  simp only [List.map_cons, List.head?_cons, Option.some.injEq]
  have h0 : (((0 : Nat) : ℚ) / (CURVE_STEPS : ℚ)) = 0 := by norm_num
  rw [h0, bezierPt_zero]

/-- The segment loop on a list with at least one segment produces at
least one point. -/
theorem segmentsFrom_ne_nil (sqrt : ℚ → ℚ) (i : Nat) (a b : Point) (rest : List Point) :
    segmentsFrom sqrt i (a :: b :: rest) ≠ [] := by
  simp only [segmentsFrom]
  intro h
  rcases List.append_eq_nil.mp h with ⟨h1, _⟩
  exact segmentSamples_ne_nil sqrt i a b h1

/-- The segment loop's output ends with the exact last input point. -/
theorem segmentsFrom_getLast (sqrt : ℚ → ℚ) :
    ∀ (rest : List Point) (i : Nat) (a b : Point),
      (segmentsFrom sqrt i (a :: b :: rest)).getLast? = (a :: b :: rest).getLast? := by
  intro rest
  induction rest with
  | nil =>
    intro i a b
    simp only [segmentsFrom, List.append_nil]
    rw [segmentSamples_getLast]
    rfl
  | cons c rest3 ih =>
    intro i a b
    have hstep : segmentsFrom sqrt i (a :: b :: c :: rest3) =
        segmentSamples sqrt i a b ++ segmentsFrom sqrt (i + 1) (b :: c :: rest3) := rfl
    rw [hstep, List.getLast?_append_of_ne_nil _ (segmentsFrom_ne_nil sqrt (i + 1) b c rest3)]
    rw [ih (i + 1) b c]
    exact (List.getLast?_cons_cons ..).symm

/-- The segment loop's output starts with the first segment's first
sample. -/
theorem segmentsFrom_head_cons (sqrt : ℚ → ℚ) (i : Nat) (a b : Point)
    (rest : List Point) :
    (segmentsFrom sqrt i (a :: b :: rest)).head? = (segmentSamples sqrt i a b).head? := by
  simp only [segmentsFrom]
  cases hs : segmentSamples sqrt i a b with
  | nil => exact absurd hs (segmentSamples_ne_nil sqrt i a b)
  | cons x xs => simp

/-- Away from the seeded first point, all adjacent output points of the
segment loop are distinct, provided consecutive input points are. -/
theorem chain'_segmentsFrom (sqrt : ℚ → ℚ) :
    ∀ (l : List Point), List.Chain' (· ≠ ·) l →
      ∀ i, List.Chain' (· ≠ ·) (segmentsFrom sqrt i l) := by
  intro l
  induction l with
  | nil => intro _ i; simp [segmentsFrom]
  | cons a rest ih =>
    intro hl i
    cases rest with
    | nil => simp [segmentsFrom]
    | cons b rest2 =>
      have hab : a ≠ b := (List.chain'_cons.mp hl).1
      have htail : List.Chain' (· ≠ ·) (b :: rest2) := (List.chain'_cons.mp hl).2
      have hstep : segmentsFrom sqrt i (a :: b :: rest2) =
          segmentSamples sqrt i a b ++ segmentsFrom sqrt (i + 1) (b :: rest2) := by
        cases rest2 <;> rfl
      rw [hstep]
      refine List.chain'_append.mpr
        ⟨chain'_segmentSamples sqrt i a b hab, ih htail (i + 1), ?_⟩
      intro x hx y hy
      rw [segmentSamples_getLast] at hx
      have hxb : b = x := by simpa using hx
      subst hxb
      cases rest2 with
      | nil =>
        have hnil : segmentsFrom sqrt (i + 1) [b] = [] := rfl
        rw [hnil] at hy
        simp at hy
      | cons c rest3 =>
        rw [segmentsFrom_head_cons, segmentSamples_head_succ] at hy
        have hyv : bezierPt b c (controlOf b c (curveOffsetOf sqrt b c))
            (((1 : Nat) : ℚ) / (CURVE_STEPS : ℚ)) = y :=
          Option.some_inj.mp (Option.mem_def.mp hy)
        subst hyv
        have hbc : b ≠ c := (List.chain'_cons.mp htail).1
        have hne := bezierPt_injOn b c (curveOffsetOf sqrt b c) hbc 0
          (((1 : Nat) : ℚ) / (CURVE_STEPS : ℚ)) (by norm_num [CURVE_STEPS])
        rw [bezierPt_zero] at hne
        exact hne

/-- C5: on every coordinate sequence of length at least 2 the Curve
Smoother's output is nonempty, starts with the exact first input point
and ends with the exact last input point — for any model of
`Math.sqrt`, since the endpoint samples do not depend on the control
offset. -/
theorem C5_endpoints (sqrt : ℚ → ℚ) (coordinates : List Point)
    (h2 : 2 ≤ coordinates.length) :
    createCurvedPath sqrt coordinates ≠ [] ∧
    (createCurvedPath sqrt coordinates).head? = coordinates.head? ∧
    (createCurvedPath sqrt coordinates).getLast? = coordinates.getLast? := by
  cases coordinates with
  | nil => simp at h2
  | cons a rest =>
    cases rest with
    | nil => simp at h2
    | cons b rest2 =>
      have hcond : ¬ ((a :: b :: rest2).length < 2) := by simp
      have hout : createCurvedPath sqrt (a :: b :: rest2) =
          a :: segmentsFrom sqrt 0 (a :: b :: rest2) := by
        simp [createCurvedPath, hcond]
      refine ⟨by rw [hout]; exact List.cons_ne_nil a _, by rw [hout]; rfl, ?_⟩
      rw [hout, ← List.singleton_append,
        List.getLast?_append_of_ne_nil _ (segmentsFrom_ne_nil sqrt 0 a b rest2),
        segmentsFrom_getLast sqrt rest2 0 a b]

/-- Witness for C5 on the concrete two-point path `[(0,0), (0,1)]` with
the identity standing in for `Math.sqrt`. -/
theorem C5_witness :
    createCurvedPath (fun q => q) [(0, 0), (0, 1)] ≠ [] ∧
    (createCurvedPath (fun q => q) [(0, 0), (0, 1)]).head? = some ((0 : ℚ), (0 : ℚ)) ∧
    (createCurvedPath (fun q => q) [(0, 0), (0, 1)]).getLast? = some ((0 : ℚ), (1 : ℚ)) := by
  have h := C5_endpoints (fun q => q) [(0, 0), (0, 1)] (by simp)
  exact ⟨h.1, by rw [h.2.1]; rfl, by rw [h.2.2]; rfl⟩

/-- C8 counterexample: on the two distinct input points `(0,0)` and
`(0,1)` the output's first two elements are both the exact first input
point — the seeded `coordinates[0]` and segment 0's `t = 0` sample — so
the output does contain two adjacent equal points and the claim as
stated is false. -/
theorem C8_counterexample :
    ((0 : ℚ), (0 : ℚ)) ≠ ((0 : ℚ), (1 : ℚ)) ∧
    (createCurvedPath (fun q => q) [(0, 0), (0, 1)]).head? = some ((0 : ℚ), (0 : ℚ)) ∧
    (createCurvedPath (fun q => q) [(0, 0), (0, 1)]).tail.head? = some ((0 : ℚ), (0 : ℚ)) ∧
    ¬ List.Chain' (· ≠ ·) (createCurvedPath (fun q => q) [(0, 0), (0, 1)]) := by
  have hcond : ¬ (([((0 : ℚ), (0 : ℚ)), ((0 : ℚ), (1 : ℚ))] : List Point).length < 2) := by
    simp
  have hout : createCurvedPath (fun q => q) [(0, 0), (0, 1)] =
      ((0 : ℚ), (0 : ℚ)) :: segmentsFrom (fun q => q) 0 [(0, 0), (0, 1)] := by
    simp [createCurvedPath, hcond]
  have hhead : (segmentsFrom (fun q => q) 0 [(0, 0), (0, 1)]).head? =
      some ((0 : ℚ), (0 : ℚ)) := by
    rw [segmentsFrom_head_cons, segmentSamples_head_zero]
  refine ⟨by decide, by rw [hout]; rfl, by rw [hout]; simpa using hhead, ?_⟩
  intro hch
  rw [hout] at hch
  rcases List.chain'_cons'.mp hch with ⟨hfirst, _⟩
  exact hfirst ((0 : ℚ), (0 : ℚ)) (by rw [hhead]; rfl) rfl

/-- C8 (amended): for every input of length at least 2 whose consecutive
points are pairwise distinct, the shared endpoints between consecutive
segments are inserted only once, and the only adjacent duplication in
the output is at its very start: the first input point appears both as
the seeded element 0 and as segment 0's `t = 0` sample (element 1);
after dropping the seeded first element, the output contains no two
adjacent equal points. -/
theorem C8_no_adjacent_dups_after_seed (sqrt : ℚ → ℚ) (coordinates : List Point)
    (h2 : 2 ≤ coordinates.length) (hne : List.Chain' (· ≠ ·) coordinates) :
    (createCurvedPath sqrt coordinates).head? = coordinates.head? ∧
    (createCurvedPath sqrt coordinates).tail.head? = coordinates.head? ∧
    List.Chain' (· ≠ ·) (createCurvedPath sqrt coordinates).tail := by
  cases coordinates with
  | nil => simp at h2
  | cons a rest =>
    cases rest with
    | nil => simp at h2
    | cons b rest2 =>
      have hcond : ¬ ((a :: b :: rest2).length < 2) := by simp
      have hout : createCurvedPath sqrt (a :: b :: rest2) =
          a :: segmentsFrom sqrt 0 (a :: b :: rest2) := by
        simp [createCurvedPath, hcond]
      refine ⟨by rw [hout]; rfl, ?_, ?_⟩
      · rw [hout]
        show (segmentsFrom sqrt 0 (a :: b :: rest2)).head? = some a
        rw [segmentsFrom_head_cons, segmentSamples_head_zero]
      · rw [hout]
        show List.Chain' (· ≠ ·) (segmentsFrom sqrt 0 (a :: b :: rest2))
        exact chain'_segmentsFrom sqrt (a :: b :: rest2) hne 0

/-- Witness for the amended C8 on the concrete input `[(0,0), (1,1)]`
with the constant-zero model of `Math.sqrt`. -/
theorem C8_witness :
    (createCurvedPath (fun _ => 0) [(0, 0), (1, 1)]).head? = some ((0 : ℚ), (0 : ℚ)) ∧
    (createCurvedPath (fun _ => 0) [(0, 0), (1, 1)]).tail.head? = some ((0 : ℚ), (0 : ℚ)) ∧
    List.Chain' (· ≠ ·) (createCurvedPath (fun _ => 0) [(0, 0), (1, 1)]).tail := by
  have hch : List.Chain' (· ≠ ·) ([((0 : ℚ), (0 : ℚ)), ((1 : ℚ), (1 : ℚ))] : List Point) :=
    List.chain'_cons.mpr ⟨by decide, List.chain'_singleton _⟩
  have h := C8_no_adjacent_dups_after_seed (fun _ => 0) [(0, 0), (1, 1)] (by simp) hch
  exact ⟨by rw [h.1]; rfl, by rw [h.2.1]; rfl, h.2.2⟩
